import Mathlib

/-!
Verification of the Invadr offline-first reconciliation engine.

The definitions below are a shallow embedding of the TypeScript sources:
  src/types/index.ts            (data model)
  src/utils/geo.ts              (isWithinDays; haversineDistanceKm is abstracted, see below)
  src/constants.ts              (OUTBREAK_CONFIG)
  src/services/storageService.ts (two-bucket record store)
  src/services/outbreakService.ts (greedy anchor-sweep clustering)
  src/services/syncManager.ts   (synchronization pass)
  src/contexts/ReportsContext.tsx (refresh merge of server and local records)

Modelling conventions:
  * Timestamps are ISO-8601 strings in the source and are always consumed
    through new Date(s).getTime(); we model them directly as the resulting
    epoch milliseconds (Int).  The wall clock Date.now() becomes an explicit
    parameter named now.
  * JavaScript numbers are modelled as rationals, so centroid arithmetic is
    exact where the source computes with floats.
  * haversineDistanceKm is a transcendental function of the coordinates; the
    detector only consumes it through the test distance <= RADIUS_KM, so the
    detector is parametrized by the distance function distKm.  Theorems that
    need geometric facts about the distance take them as hypotheses (symmetry
    and the triangle inequality, both true of great-circle distance).
  * AsyncStorage is modelled as a Store value threaded explicitly; the async
    layer has no other observable effect in these functions.
  * Exceptions become explicit: the remote fetch is an Except value, the
    classify and upload calls of the sync pass are oracles returning Option
    and Bool.  Totality of the Lean functions models the fact that the
    corresponding source paths catch their errors.
-/

namespace Invadr

/-- Risk levels of an ML prediction, from src/types/index.ts. -/
inductive RiskLevel where
  | low
  | medium
  | high
  | unknown
deriving DecidableEq

/-- Sync life-cycle states of a report, from src/types/index.ts. -/
inductive SyncStatus where
  | pending
  | syncing
  | uploaded
  | failed
deriving DecidableEq

/-- GPS coordinates, from src/types/index.ts. -/
structure GPSCoordinates where
  latitude : ℚ
  longitude : ℚ
  accuracy : Option ℚ := none
deriving DecidableEq

/-- ML prediction attached to a report, from src/types/index.ts. -/
structure MLPrediction where
  species_name : String
  confidence_score : ℚ
  invasive_risk_level : RiskLevel
deriving DecidableEq

/-- A sighting record, from src/types/index.ts (interface InvasiveReport). -/
structure InvasiveReport where
  id : String
  imageUri : String
  audioUri : Option String := none
  audioDuration : Option ℚ := none
  coordinates : GPSCoordinates
  timestamp : Int
  notes : String
  prediction : Option MLPrediction
  syncStatus : SyncStatus
  userId : String
deriving DecidableEq

/-- An outbreak zone, from src/types/index.ts.  The source also stamps each
zone with a random uuid (generateId) and the wall-clock detectedAt string;
both are environment supplied and carried by no claim, so they are omitted
from the embedding. -/
structure OutbreakZone where
  centerCoordinates : GPSCoordinates
  radiusKm : ℚ
  reportCount : Nat
  reports : List InvasiveReport
deriving DecidableEq

/-- The outbreak configuration record, from src/constants.ts. -/
structure OutbreakConfig where
  MIN_REPORTS : Nat
  RADIUS_KM : ℚ
  TIME_WINDOW_DAYS : Int
  MIN_CONFIDENCE : ℚ

/-- OUTBREAK_CONFIG of src/constants.ts: MIN_REPORTS 5, RADIUS_KM 5,
TIME_WINDOW_DAYS 7, MIN_CONFIDENCE 0.75. -/
def OUTBREAK_CONFIG : OutbreakConfig :=
  { MIN_REPORTS := 5
    RADIUS_KM := 5
    TIME_WINDOW_DAYS := 7
    MIN_CONFIDENCE := mkRat 3 4 }

/-- isWithinDays of src/utils/geo.ts: true when now minus the capture instant
is at most days * 24h in milliseconds.  The signed difference makes the test
vacuously true for future-dated records. -/
def isWithinDays (now date : Int) (days : Int) : Bool :=
  decide (now - date ≤ days * 24 * 60 * 60 * 1000)

/-- isHighRisk of src/services/outbreakService.ts: non-null prediction whose
risk level is high and whose confidence reaches MIN_CONFIDENCE. -/
def isHighRisk (cfg : OutbreakConfig) (report : InvasiveReport) : Bool :=
  match report.prediction with
  | none => false
  | some p =>
      decide (p.invasive_risk_level = RiskLevel.high) &&
      decide (cfg.MIN_CONFIDENCE ≤ p.confidence_score)

/-- The candidate filter at the top of detectOutbreaks. -/
def candidatesOf (cfg : OutbreakConfig) (now : Int)
    (reports : List InvasiveReport) : List InvasiveReport :=
  reports.filter (fun r => isHighRisk cfg r && isWithinDays now r.timestamp cfg.TIME_WINDOW_DAYS)

/-- The per-anchor cluster of detectOutbreaks: every candidate within
RADIUS_KM of the anchor.  Note that the source does not exclude already
visited candidates here. -/
def clusterOf (distKm : GPSCoordinates → GPSCoordinates → ℚ) (cfg : OutbreakConfig)
    (cands : List InvasiveReport) (anchor : InvasiveReport) : List InvasiveReport :=
  cands.filter (fun r => decide (distKm anchor.coordinates r.coordinates ≤ cfg.RADIUS_KM))

/-- Zone construction inside detectOutbreaks: centroid of the member
coordinates, the configured radius, and the cluster size. -/
def mkZone (cfg : OutbreakConfig) (cluster : List InvasiveReport) : OutbreakZone :=
  { centerCoordinates :=
      { latitude := (cluster.map (fun r => r.coordinates.latitude)).sum / cluster.length
        longitude := (cluster.map (fun r => r.coordinates.longitude)).sum / cluster.length
        accuracy := none }
    radiusKm := cfg.RADIUS_KM
    reportCount := cluster.length
    reports := cluster }

/-- The anchor loop of detectOutbreaks: iterate the candidates, skip anchors
whose id is already in the visited set, emit a zone when the cluster reaches
MIN_REPORTS and then mark every member id visited. -/
def detectLoop (distKm : GPSCoordinates → GPSCoordinates → ℚ) (cfg : OutbreakConfig)
    (cands : List InvasiveReport) : List InvasiveReport → List String → List OutbreakZone
  | [], _ => []
  | anchor :: rest, used =>
    if anchor.id ∈ used then
      detectLoop distKm cfg cands rest used
    else
      let cluster := clusterOf distKm cfg cands anchor
      if cfg.MIN_REPORTS ≤ cluster.length then
        mkZone cfg cluster :: detectLoop distKm cfg cands rest (used ++ cluster.map (fun r => r.id))
      else
        detectLoop distKm cfg cands rest used

/-- detectOutbreaks of src/services/outbreakService.ts. -/
def detectOutbreaks (distKm : GPSCoordinates → GPSCoordinates → ℚ) (cfg : OutbreakConfig)
    (now : Int) (reports : List InvasiveReport) : List OutbreakZone :=
  let cands := candidatesOf cfg now reports
  detectLoop distKm cfg cands cands []

/-- Instrumented variant of the anchor loop that also records the anchor of
each emitted zone; used to state which record each zone was grown from. -/
def detectLoopAnchored (distKm : GPSCoordinates → GPSCoordinates → ℚ) (cfg : OutbreakConfig)
    (cands : List InvasiveReport) :
    List InvasiveReport → List String → List (InvasiveReport × OutbreakZone)
  | [], _ => []
  | anchor :: rest, used =>
    if anchor.id ∈ used then
      detectLoopAnchored distKm cfg cands rest used
    else
      let cluster := clusterOf distKm cfg cands anchor
      if cfg.MIN_REPORTS ≤ cluster.length then
        (anchor, mkZone cfg cluster) ::
          detectLoopAnchored distKm cfg cands rest (used ++ cluster.map (fun r => r.id))
      else
        detectLoopAnchored distKm cfg cands rest used

/-- detectOutbreaks together with the anchor of each zone. -/
def detectOutbreaksAnchored (distKm : GPSCoordinates → GPSCoordinates → ℚ)
    (cfg : OutbreakConfig) (now : Int) (reports : List InvasiveReport) :
    List (InvasiveReport × OutbreakZone) :=
  let cands := candidatesOf cfg now reports
  detectLoopAnchored distKm cfg cands cands []

/-! ## Record store (src/services/storageService.ts) -/

/-- The two persisted buckets of storageService.ts. -/
structure Store where
  pending : List InvasiveReport
  synced : List InvasiveReport
deriving DecidableEq

/-- Both storage keys empty, the initial persisted state. -/
def emptyStore : Store := { pending := [], synced := [] }

/-- saveReport: drop any pending record with the same id, then append. -/
def saveReport (report : InvasiveReport) (s : Store) : Store :=
  { s with pending := s.pending.filter (fun r => r.id != report.id) ++ [report] }

/-- updateReportStatus: rewrite the syncStatus of the matching pending record. -/
def updateReportStatus (id : String) (status : SyncStatus) (s : Store) : Store :=
  { s with pending := s.pending.map (fun r => if r.id = id then { r with syncStatus := status } else r) }

/-- markReportSynced: move the matching pending record to the synced bucket
with status uploaded; no-op when the id is not pending. -/
def markReportSynced (id : String) (s : Store) : Store :=
  match s.pending.find? (fun r => r.id == id) with
  | none => s
  | some target =>
      { pending := s.pending.filter (fun r => r.id != id)
        synced := s.synced ++ [{ target with syncStatus := SyncStatus.uploaded }] }

/-- deleteReport: remove the id from both buckets. -/
def deleteReport (id : String) (s : Store) : Store :=
  { pending := s.pending.filter (fun r => r.id != id)
    synced := s.synced.filter (fun r => r.id != id) }

/-- The descending-timestamp sort used by getAllReports and refresh
(comparator (a, b) => b.timestamp - a.timestamp). -/
def sortByTimestampDesc (l : List InvasiveReport) : List InvasiveReport :=
  l.insertionSort (fun a b => b.timestamp ≤ a.timestamp)

/-- getAllReports: both buckets, most recent first. -/
def getAllReports (s : Store) : List InvasiveReport :=
  sortByTimestampDesc (s.pending ++ s.synced)

/-- One store mutation, for stating properties of arbitrary operation
sequences. -/
inductive StoreOp where
  | save (report : InvasiveReport)
  | updateStatus (id : String) (status : SyncStatus)
  | markSynced (id : String)
  | del (id : String)
deriving DecidableEq

/-- Apply one store mutation. -/
def applyOp (s : Store) (op : StoreOp) : Store :=
  match op with
  | StoreOp.save r => saveReport r s
  | StoreOp.updateStatus id st => updateReportStatus id st s
  | StoreOp.markSynced id => markReportSynced id s
  | StoreOp.del id => deleteReport id s

/-- Apply a sequence of store mutations in order. -/
def applyOps (s : Store) (ops : List StoreOp) : Store :=
  ops.foldl applyOp s

/-- Bucket exclusivity: every id occurs at most once across both buckets. -/
def storeInv (s : Store) : Prop :=
  ((s.pending ++ s.synced).map (fun r => r.id)).Nodup

/-- A save is admissible when its id is not sitting in the synced bucket;
every other operation is unconditionally admissible. -/
def okStep (s : Store) (op : StoreOp) : Bool :=
  match op with
  | StoreOp.save r => !((s.synced.map (fun x => x.id)).contains r.id)
  | _ => true

/-- Every step of the run is admissible in the state it executes in. -/
def okRun (s : Store) : List StoreOp → Bool
  | [] => true
  | op :: ops => okStep s op && okRun (applyOp s op) ops

/-! ## Reconciliation (refresh of src/contexts/ReportsContext.tsx) -/

/-- The merge step of refresh: all server records, plus local records whose
id is absent from the server set and whose status is pending or failed,
sorted most recent first. -/
def mergeReports (serverReports localReports : List InvasiveReport) : List InvasiveReport :=
  let serverIds := serverReports.map (fun r => r.id)
  let localOnly := localReports.filter
    (fun r => !(serverIds.contains r.id) &&
      (r.syncStatus == SyncStatus.pending || r.syncStatus == SyncStatus.failed))
  sortByTimestampDesc (serverReports ++ localOnly)

/-- refresh: the fetchAllReports call is wrapped in try/catch and a failure
is treated as an empty server set, so the merge always proceeds. -/
def refreshView (fetchResult : Except Unit (List InvasiveReport))
    (localReports : List InvasiveReport) : List InvasiveReport :=
  let serverReports := match fetchResult with
    | Except.ok l => l
    | Except.error _ => []
  mergeReports serverReports localReports

/-! ## Sync pass (src/services/syncManager.ts)

The classify and upload calls of the Remote Gateway are modelled as oracles:
predict yields some prediction on success and none on failure, uploadOk tells
whether the upload of the given payload record succeeds.  The inner
try/catch of runSync becomes the two branches on uploadOk; the inner
prediction try/catch becomes the match on the predict result. -/

/-- The upload payload assembled by runSync, from src/types/index.ts
(SyncReportPayload). -/
structure SyncPayload where
  id : String
  imageUri : String
  audioUri : Option String
  latitude : ℚ
  longitude : ℚ
  timestamp : Int
  notes : String
  prediction : Option MLPrediction
  userId : String
deriving DecidableEq

/-- The field projection performed at the uploadReport call site. -/
def payloadOf (r : InvasiveReport) : SyncPayload :=
  { id := r.id
    imageUri := r.imageUri
    audioUri := r.audioUri
    latitude := r.coordinates.latitude
    longitude := r.coordinates.longitude
    timestamp := r.timestamp
    notes := r.notes
    prediction := r.prediction
    userId := r.userId }

/-- The report that is uploaded: the selected record, with a freshly
classified prediction filled in when it had none and classification
succeeded. -/
def finalReportOf (predict : InvasiveReport → Option MLPrediction)
    (report : InvasiveReport) : InvasiveReport :=
  match report.prediction with
  | some _ => report
  | none =>
      match predict report with
      | some p => { report with prediction := some p }
      | none => report

/-- The per-record loop of runSync.  Each iteration marks the record
syncing, computes the upload payload, and either moves the record to the
synced bucket (upload succeeded) or marks it failed (upload threw); a
failure never stops the remaining records.  The returned list records every
attempted upload payload together with its outcome. -/
def syncLoop (predict : InvasiveReport → Option MLPrediction)
    (uploadOk : InvasiveReport → Bool) :
    List InvasiveReport → Store → Store × List (SyncPayload × Bool)
  | [], s => (s, [])
  | report :: rest, s =>
    let s1 := updateReportStatus report.id SyncStatus.syncing s
    let finalReport := finalReportOf predict report
    if uploadOk finalReport then
      let s2 := markReportSynced finalReport.id s1
      let rec2 := syncLoop predict uploadOk rest s2
      (rec2.1, (payloadOf finalReport, true) :: rec2.2)
    else
      let s2 := updateReportStatus report.id SyncStatus.failed s1
      let rec2 := syncLoop predict uploadOk rest s2
      (rec2.1, (payloadOf finalReport, false) :: rec2.2)

/-- One online synchronization pass of runSync, after the guard and the
connectivity check: select the pending and failed records, then run the
per-record loop. -/
def runSyncPass (predict : InvasiveReport → Option MLPrediction)
    (uploadOk : InvasiveReport → Bool) (s : Store) : Store × List (SyncPayload × Bool) :=
  let toSync := s.pending.filter
    (fun r => r.syncStatus == SyncStatus.pending || r.syncStatus == SyncStatus.failed)
  syncLoop predict uploadOk toSync s

/-! ## Interleaving model of the runSync guard

runSync executes as atomic segments separated by its suspension points.
The segments relevant to the guard are:
  start:       if (isSyncing) return;            -- then suspend on NetInfo.fetch()
  awaitingNet: if (!netState.isConnected) return; isSyncing = true;  -- then the body runs
  inPass:      the body completes (normally or not); finally { isSyncing = false }.
Two concurrently triggered invocations step nondeterministically. -/

/-- Progress of one runSync invocation through its atomic segments. -/
inductive SyncPhase where
  | start
  | awaitingNet
  | inPass
  | done
deriving DecidableEq

/-- The shared guard flag together with the phase of two concurrently
triggered runSync invocations. -/
structure SyncSys where
  isSyncing : Bool
  task1 : SyncPhase
  task2 : SyncPhase
deriving DecidableEq

/-- One atomic step of either invocation.  The guard is read in the start
segment, but only set in the segment that resumes after the NetInfo.fetch
suspension, exactly as in the source. -/
inductive SyncStep : SyncSys → SyncSys → Prop where
  | guardHit1 (t2 : SyncPhase) :
      SyncStep ⟨true, SyncPhase.start, t2⟩ ⟨true, SyncPhase.done, t2⟩
  | guardPass1 (t2 : SyncPhase) :
      SyncStep ⟨false, SyncPhase.start, t2⟩ ⟨false, SyncPhase.awaitingNet, t2⟩
  | offline1 (f : Bool) (t2 : SyncPhase) :
      SyncStep ⟨f, SyncPhase.awaitingNet, t2⟩ ⟨f, SyncPhase.done, t2⟩
  | enter1 (f : Bool) (t2 : SyncPhase) :
      SyncStep ⟨f, SyncPhase.awaitingNet, t2⟩ ⟨true, SyncPhase.inPass, t2⟩
  | finish1 (f : Bool) (t2 : SyncPhase) :
      SyncStep ⟨f, SyncPhase.inPass, t2⟩ ⟨false, SyncPhase.done, t2⟩
  | guardHit2 (t1 : SyncPhase) :
      SyncStep ⟨true, t1, SyncPhase.start⟩ ⟨true, t1, SyncPhase.done⟩
  | guardPass2 (t1 : SyncPhase) :
      SyncStep ⟨false, t1, SyncPhase.start⟩ ⟨false, t1, SyncPhase.awaitingNet⟩
  | offline2 (f : Bool) (t1 : SyncPhase) :
      SyncStep ⟨f, t1, SyncPhase.awaitingNet⟩ ⟨f, t1, SyncPhase.done⟩
  | enter2 (f : Bool) (t1 : SyncPhase) :
      SyncStep ⟨f, t1, SyncPhase.awaitingNet⟩ ⟨true, t1, SyncPhase.inPass⟩
  | finish2 (f : Bool) (t1 : SyncPhase) :
      SyncStep ⟨f, t1, SyncPhase.inPass⟩ ⟨false, t1, SyncPhase.done⟩

/-! ## Concrete sample values used by witnesses and counterexamples -/

/-- A report with the given id, latitude, capture time, prediction and
status; the remaining fields are fixed throughout. -/
def mkReport (i : String) (lat : ℚ) (ts : Int) (pred : Option MLPrediction)
    (st : SyncStatus) : InvasiveReport :=
  { id := i
    imageUri := "img"
    audioUri := none
    audioDuration := none
    coordinates := { latitude := lat, longitude := 0, accuracy := none }
    timestamp := ts
    notes := ""
    prediction := pred
    syncStatus := st
    userId := "u" }

/-- A high-risk prediction with confidence 0.8, above MIN_CONFIDENCE. -/
def highPred : MLPrediction :=
  { species_name := "sp"
    confidence_score := mkRat 4 5
    invasive_risk_level := RiskLevel.high }

/-! ## Theorems -/

/-- isHighRisk in propositional form. -/
theorem isHighRisk_eq_true_iff (cfg : OutbreakConfig) (r : InvasiveReport) :
    isHighRisk cfg r = true ↔
      ∃ p, r.prediction = some p ∧ p.invasive_risk_level = RiskLevel.high ∧
        cfg.MIN_CONFIDENCE ≤ p.confidence_score := by
  cases h : r.prediction <;> simp [isHighRisk, h]

/-- isWithinDays in propositional form. -/
theorem isWithinDays_eq_true_iff (now date days : Int) :
    isWithinDays now date days = true ↔ now - date ≤ days * 86400000 := by
  simp only [isWithinDays, decide_eq_true_eq]
  omega

/-- Claim C5: the candidate set of detectOutbreaks consists exactly of the
records with a non-null prediction of high risk, confidence at least
MIN_CONFIDENCE, and capture time within the closed window
now - capturedAt <= timeWindowDays * 86400000 ms; the window boundary is
inclusive, and a record one millisecond older is excluded. -/
theorem candidates_exact_and_boundary :
    (∀ (cfg : OutbreakConfig) (now : Int) (reports : List InvasiveReport)
        (r : InvasiveReport),
      r ∈ candidatesOf cfg now reports ↔
        r ∈ reports ∧
        (∃ p, r.prediction = some p ∧ p.invasive_risk_level = RiskLevel.high ∧
          cfg.MIN_CONFIDENCE ≤ p.confidence_score) ∧
        now - r.timestamp ≤ cfg.TIME_WINDOW_DAYS * 86400000)
    ∧ (∀ now days : Int, isWithinDays now (now - days * 86400000) days = true)
    ∧ (∀ now days : Int, isWithinDays now (now - days * 86400000 - 1) days = false)
    ∧ (∀ (cfg : OutbreakConfig) (now : Int) (reports : List InvasiveReport)
        (r : InvasiveReport), r ∈ reports → isHighRisk cfg r = true →
        r.timestamp = now - cfg.TIME_WINDOW_DAYS * 86400000 →
        r ∈ candidatesOf cfg now reports)
    ∧ (∀ (cfg : OutbreakConfig) (now : Int) (reports : List InvasiveReport)
        (r : InvasiveReport),
        r.timestamp = now - cfg.TIME_WINDOW_DAYS * 86400000 - 1 →
        r ∉ candidatesOf cfg now reports) := by
  have hmem : ∀ (cfg : OutbreakConfig) (now : Int) (reports : List InvasiveReport)
      (r : InvasiveReport),
      r ∈ candidatesOf cfg now reports ↔
        r ∈ reports ∧ isHighRisk cfg r = true ∧
          now - r.timestamp ≤ cfg.TIME_WINDOW_DAYS * 86400000 := by
    intro cfg now reports r
    simp only [candidatesOf, List.mem_filter, Bool.and_eq_true,
      isWithinDays_eq_true_iff, and_assoc]
  refine ⟨?_, ?_, ?_, ?_, ?_⟩
  · intro cfg now reports r
    rw [hmem, isHighRisk_eq_true_iff]
  · intro now days
    rw [isWithinDays_eq_true_iff]
    omega
  · intro now days
    cases h : isWithinDays now (now - days * 86400000 - 1) days with
    | false => rfl
    | true =>
        rw [isWithinDays_eq_true_iff] at h
        omega
  · intro cfg now reports r hmem2 hrisk hts
    rw [hmem]
    exact ⟨hmem2, hrisk, by omega⟩
  · intro cfg now reports r hts hin
    rw [hmem] at hin
    omega

/-- Witness for candidates_exact_and_boundary: a concrete record captured
exactly seven days before now is a candidate. -/
theorem candidates_exact_and_boundary_witness :
    mkReport "w" 0 0 (some highPred) SyncStatus.pending ∈
      candidatesOf OUTBREAK_CONFIG 604800000
        [mkReport "w" 0 0 (some highPred) SyncStatus.pending] :=
  candidates_exact_and_boundary.2.2.2.1 OUTBREAK_CONFIG 604800000
    [mkReport "w" 0 0 (some highPred) SyncStatus.pending]
    (mkReport "w" 0 0 (some highPred) SyncStatus.pending)
    (by decide) (by decide) (by decide)

/-- Claim C10: a future-dated capture time makes the signed difference
now - capturedAt negative, so isWithinDays accepts it for every non-negative
day count, and such a high-risk record always passes the candidate filter of
the outbreak detector. -/
theorem future_timestamps_always_in_window :
    (∀ now date days : Int, now < date → 0 ≤ days →
      isWithinDays now date days = true)
    ∧ (∀ (now : Int) (reports : List InvasiveReport) (r : InvasiveReport),
        r ∈ reports → isHighRisk OUTBREAK_CONFIG r = true → now < r.timestamp →
        r ∈ candidatesOf OUTBREAK_CONFIG now reports) := by
  constructor
  · intro now date days hfut hd
    rw [isWithinDays_eq_true_iff]
    have : (0 : Int) ≤ days * 86400000 := by positivity
    omega
  · intro now reports r hr hrisk hfut
    simp only [candidatesOf, List.mem_filter, Bool.and_eq_true]
    refine ⟨hr, hrisk, ?_⟩
    rw [isWithinDays_eq_true_iff]
    have h7 : OUTBREAK_CONFIG.TIME_WINDOW_DAYS = 7 := rfl
    rw [h7]
    omega

/-- Witness for future_timestamps_always_in_window: a record stamped one
millisecond in the future is inside every seven-day window. -/
theorem future_timestamps_always_in_window_witness :
    isWithinDays 0 1 7 = true :=
  future_timestamps_always_in_window.1 0 1 7 (by decide) (by decide)

/-- Claim C7: when the server fetch fails, refresh treats the server set as
empty and still returns the local-only view, the local records whose state
is pending or failed, sorted most recent first; the Lean function is total,
modelling that no error escapes the merge path. -/
theorem refresh_fetch_failure_fallback (localReports : List InvasiveReport) (e : Unit) :
    refreshView (Except.error e) localReports =
      sortByTimestampDesc (localReports.filter
        (fun r => r.syncStatus == SyncStatus.pending ||
          r.syncStatus == SyncStatus.failed)) :=
  rfl

/-- Claim C8: the code checks the isSyncing guard at the top of runSync but
only sets it after the NetInfo.fetch suspension point, so two invocations
interleaved at that await both observe a clear guard and both enter the
pass: the state with both tasks inside the pass body is reachable, refuting
at-most-one-pass-in-flight. -/
theorem runSync_guard_race :
    Relation.ReflTransGen SyncStep
      ⟨false, SyncPhase.start, SyncPhase.start⟩
      ⟨true, SyncPhase.inPass, SyncPhase.inPass⟩ := by
  have h1 : SyncStep ⟨false, SyncPhase.start, SyncPhase.start⟩
      ⟨false, SyncPhase.awaitingNet, SyncPhase.start⟩ :=
    SyncStep.guardPass1 SyncPhase.start
  have h2 : SyncStep ⟨false, SyncPhase.awaitingNet, SyncPhase.start⟩
      ⟨false, SyncPhase.awaitingNet, SyncPhase.awaitingNet⟩ :=
    SyncStep.guardPass2 SyncPhase.awaitingNet
  have h3 : SyncStep ⟨false, SyncPhase.awaitingNet, SyncPhase.awaitingNet⟩
      ⟨true, SyncPhase.inPass, SyncPhase.awaitingNet⟩ :=
    SyncStep.enter1 false SyncPhase.awaitingNet
  have h4 : SyncStep ⟨true, SyncPhase.inPass, SyncPhase.awaitingNet⟩
      ⟨true, SyncPhase.inPass, SyncPhase.inPass⟩ :=
    SyncStep.enter2 true SyncPhase.inPass
  exact Relation.ReflTransGen.head h1 (Relation.ReflTransGen.head h2
    (Relation.ReflTransGen.head h3 (Relation.ReflTransGen.single h4)))

/-- Ids of a filtered pending list are ids of the original list. -/
theorem mem_map_id_of_filter {P : List InvasiveReport} {f : InvasiveReport → Bool}
    {a : String} (h : a ∈ (P.filter f).map (fun r => r.id)) :
    a ∈ P.map (fun r => r.id) := by
  rcases List.mem_map.mp h with ⟨x, hx, hxa⟩
  exact List.mem_map.mpr ⟨x, (List.mem_filter.mp hx).1, hxa⟩

/-- Filtering out an id really removes it from the id list. -/
theorem not_mem_map_id_filter_ne (P : List InvasiveReport) (i : String) :
    i ∉ (P.filter (fun r => r.id != i)).map (fun r => r.id) := by
  intro h
  rcases List.mem_map.mp h with ⟨x, hx, hxa⟩
  have hxf := (List.mem_filter.mp hx).2
  rw [bne_iff_ne] at hxf
  exact hxf hxa

/-- Ids of a filtered list are duplicate-free when the original ids are. -/
theorem nodup_map_id_filter {P : List InvasiveReport} (f : InvasiveReport → Bool)
    (h : (P.map (fun r => r.id)).Nodup) :
    ((P.filter f).map (fun r => r.id)).Nodup :=
  h.sublist ((P.filter_sublist).map (fun r => r.id))

/-- Bucket exclusivity is a decidable property of a concrete store. -/
instance storeInvDecidable (s : Store) : Decidable (storeInv s) := by
  unfold storeInv
  infer_instance

/-- One admissible store operation preserves bucket exclusivity. -/
theorem storeInv_applyOp (s : Store) (op : StoreOp)
    (hinv : storeInv s) (hok : okStep s op = true) : storeInv (applyOp s op) := by
  have hmain : ((s.pending.map (fun r => r.id)) ++ (s.synced.map (fun r => r.id))).Nodup := by
    simpa only [storeInv, List.map_append] using hinv
  rcases List.nodup_append.mp hmain with ⟨hP, hS, hD⟩
  cases op with
  | save r =>
      have hok2 : (s.synced.map (fun x => x.id)).contains r.id = false := by
        revert hok
        simp [okStep]
      have hr : r.id ∉ s.synced.map (fun x => x.id) := by
        intro hmem
        have hcont : (s.synced.map (fun x => x.id)).contains r.id = true :=
          List.elem_iff.mpr hmem
        rw [hok2] at hcont
        exact Bool.false_ne_true hcont
      simp only [storeInv, applyOp, saveReport, List.map_append, List.nodup_append,
        List.map_cons, List.map_nil]
      refine ⟨⟨nodup_map_id_filter _ hP, List.nodup_singleton _, ?_⟩, hS, ?_⟩
      · intro a ha hb
        rw [List.mem_singleton] at hb
        subst hb
        exact not_mem_map_id_filter_ne s.pending r.id ha
      · intro a ha hb
        rcases List.mem_append.mp ha with h1 | h1
        · exact hD (mem_map_id_of_filter h1) hb
        · rw [List.mem_singleton] at h1
          subst h1
          exact hr hb
  | updateStatus i st =>
      have hids : ((s.pending.map (fun r => if r.id = i then { r with syncStatus := st } else r)).map
          (fun r => r.id)) = s.pending.map (fun r => r.id) := by
        rw [List.map_map]
        refine List.map_congr_left ?_
        intro x _
        by_cases h : x.id = i <;> simp [Function.comp, h]
      simp only [storeInv, applyOp, updateReportStatus, List.map_append, List.nodup_append, hids]
      exact ⟨hP, hS, hD⟩
  | markSynced i =>
      simp only [applyOp, markReportSynced]
      cases hfind : s.pending.find? (fun r => r.id == i) with
      | none => exact hinv
      | some target =>
          have htmem : target ∈ s.pending := List.mem_of_find?_eq_some hfind
          have htid : target.id = i := by
            have := List.find?_some hfind
            rwa [beq_iff_eq] at this
          have hiP : i ∈ s.pending.map (fun r => r.id) :=
            htid ▸ List.mem_map.mpr ⟨target, htmem, rfl⟩
          simp only [storeInv, List.map_append, List.nodup_append, List.map_cons,
            List.map_nil]
          refine ⟨nodup_map_id_filter _ hP, ⟨hS, List.nodup_singleton _, ?_⟩, ?_⟩
          · intro a ha hb
            rw [List.mem_singleton] at hb
            subst hb
            have hup : ({ target with syncStatus := SyncStatus.uploaded }).id = i := htid
            exact hD hiP (hup ▸ ha)
          · intro a ha hb
            rcases List.mem_append.mp hb with h1 | h1
            · exact hD (mem_map_id_of_filter ha) h1
            · rw [List.mem_singleton] at h1
              have hup : ({ target with syncStatus := SyncStatus.uploaded }).id = i := htid
              rw [hup] at h1
              subst h1
              exact not_mem_map_id_filter_ne s.pending a ha
  | del i =>
      simp only [storeInv, applyOp, deleteReport, List.map_append, List.nodup_append]
      refine ⟨nodup_map_id_filter _ hP, nodup_map_id_filter _ hS, ?_⟩
      intro a ha hb
      exact hD (mem_map_id_of_filter ha) (mem_map_id_of_filter hb)

/-- An admissible run from any state keeps bucket exclusivity. -/
theorem storeInv_applyOps (ops : List StoreOp) :
    ∀ s : Store, storeInv s → okRun s ops = true → storeInv (applyOps s ops) := by
  induction ops with
  | nil => intro s hinv _; exact hinv
  | cons op ops ih =>
      intro s hinv hok
      rw [okRun, Bool.and_eq_true] at hok
      rw [applyOps, List.foldl_cons]
      exact ih (applyOp s op) (storeInv_applyOp s op hinv hok.1) hok.2

/-- Claim C3 counterexample: saving a fresh copy of an id that was already
moved to the synced bucket puts that id in both buckets at once, so bucket
exclusivity fails for this operation sequence. -/
theorem store_bucket_exclusive_cex :
    ¬ storeInv (applyOps emptyStore
      [StoreOp.save (mkReport "a" 0 0 none SyncStatus.pending),
       StoreOp.markSynced "a",
       StoreOp.save (mkReport "a" 0 1 none SyncStatus.pending)]) := by
  decide

/-- Claim C3 (amended): after any sequence of store operations starting from
empty buckets in which saveReport is never invoked with an id currently
present in the synced bucket, every record id in the store occurs exactly
once, hence lives in exactly one of the pending and synced buckets. -/
theorem store_bucket_exclusive (ops : List StoreOp)
    (h : okRun emptyStore ops = true) : storeInv (applyOps emptyStore ops) :=
  storeInv_applyOps ops emptyStore (by decide) h

/-- Witness for store_bucket_exclusive: a concrete admissible sequence of a
save, a move to synced and a second save of a different id. -/
theorem store_bucket_exclusive_witness :
    okRun emptyStore
      [StoreOp.save (mkReport "a" 0 0 none SyncStatus.pending),
       StoreOp.markSynced "a",
       StoreOp.save (mkReport "b" 0 1 none SyncStatus.pending)] = true
    ∧ storeInv (applyOps emptyStore
      [StoreOp.save (mkReport "a" 0 0 none SyncStatus.pending),
       StoreOp.markSynced "a",
       StoreOp.save (mkReport "b" 0 1 none SyncStatus.pending)]) :=
  ⟨by decide,
   store_bucket_exclusive
     [StoreOp.save (mkReport "a" 0 0 none SyncStatus.pending),
      StoreOp.markSynced "a",
      StoreOp.save (mkReport "b" 0 1 none SyncStatus.pending)] (by decide)⟩

/-- Claim C1: the merged view of refresh is exactly the server records plus
the local records whose id is not on the server and whose status is pending
or failed; a record of the merged view whose id is on the server is a
server record, and when the server ids are duplicate-free each server id
occurs exactly once in the merged view. -/
theorem refresh_merge_exact (serverReports localReports : List InvasiveReport) :
    (mergeReports serverReports localReports).Perm
      (serverReports ++ localReports.filter
        (fun r => !((serverReports.map (fun x => x.id)).contains r.id) &&
          (r.syncStatus == SyncStatus.pending || r.syncStatus == SyncStatus.failed)))
    ∧ (∀ r ∈ mergeReports serverReports localReports,
        r.id ∈ serverReports.map (fun x => x.id) → r ∈ serverReports)
    ∧ ((serverReports.map (fun x => x.id)).Nodup →
        ∀ i ∈ serverReports.map (fun x => x.id),
          ((mergeReports serverReports localReports).filter
            (fun r => r.id == i)).length = 1) := by
  have hperm : (mergeReports serverReports localReports).Perm
      (serverReports ++ localReports.filter
        (fun r => !((serverReports.map (fun x => x.id)).contains r.id) &&
          (r.syncStatus == SyncStatus.pending || r.syncStatus == SyncStatus.failed))) :=
    List.perm_insertionSort _ _
  refine ⟨hperm, ?_, ?_⟩
  · intro r hr hid
    have hr2 := hperm.mem_iff.mp hr
    rcases List.mem_append.mp hr2 with h | h
    · exact h
    · exfalso
      have hp := (List.mem_filter.mp h).2
      rw [Bool.and_eq_true] at hp
      have hc := hp.1
      have hcont : (serverReports.map (fun x => x.id)).contains r.id = true :=
        List.elem_iff.mpr hid
      rw [hcont] at hc
      simp at hc
  · intro hnodup i hi
    have hlen : ((mergeReports serverReports localReports).filter
          (fun r => r.id == i)).length =
        (((serverReports ++ localReports.filter
          (fun r => !((serverReports.map (fun x => x.id)).contains r.id) &&
            (r.syncStatus == SyncStatus.pending ||
              r.syncStatus == SyncStatus.failed))).filter
          (fun r => r.id == i))).length :=
      (hperm.filter _).length_eq
    have hLf0 : ((localReports.filter
        (fun r => !((serverReports.map (fun x => x.id)).contains r.id) &&
          (r.syncStatus == SyncStatus.pending ||
            r.syncStatus == SyncStatus.failed))).filter
        (fun r => r.id == i)).length = 0 := by
      have hnil : (localReports.filter
          (fun r => !((serverReports.map (fun x => x.id)).contains r.id) &&
            (r.syncStatus == SyncStatus.pending ||
              r.syncStatus == SyncStatus.failed))).filter
          (fun r => r.id == i) = [] := by
        apply List.filter_eq_nil_iff.mpr
        intro a ha hpa
        rw [beq_iff_eq] at hpa
        have hp := (List.mem_filter.mp ha).2
        rw [Bool.and_eq_true] at hp
        have hc := hp.1
        have hcont : (serverReports.map (fun x => x.id)).contains a.id = true :=
          List.elem_iff.mpr (hpa ▸ hi)
        rw [hcont] at hc
        simp at hc
      rw [hnil]
      rfl
    have hS1 : (serverReports.filter (fun r => r.id == i)).length = 1 := by
      calc (serverReports.filter (fun r => r.id == i)).length
          = serverReports.countP (fun r => r.id == i) :=
            (List.countP_eq_length_filter _ _).symm
        _ = (serverReports.map (fun x => x.id)).countP (fun a => a == i) := by
            rw [List.countP_map]
            exact rfl
        _ = (serverReports.map (fun x => x.id)).count i := rfl
        _ = 1 := List.count_eq_one_of_mem hnodup hi
    rw [hlen, List.filter_append, List.length_append, hS1, hLf0]

/-- Witness for refresh_merge_exact: a concrete server and local pair where
the shared id "a" appears exactly once in the merged view. -/
theorem refresh_merge_exact_witness :
    ((mergeReports [mkReport "a" 0 5 none SyncStatus.uploaded]
        [mkReport "a" 0 3 none SyncStatus.pending,
         mkReport "b" 0 4 none SyncStatus.pending]).filter
      (fun r => r.id == "a")).length = 1 :=
  (refresh_merge_exact [mkReport "a" 0 5 none SyncStatus.uploaded]
    [mkReport "a" 0 3 none SyncStatus.pending,
     mkReport "b" 0 4 none SyncStatus.pending]).2.2 (by decide) "a" (by decide)

/-- The plain detection loop is the instrumented loop without the anchors. -/
theorem detectLoop_eq_anchored (distKm : GPSCoordinates → GPSCoordinates → ℚ)
    (cfg : OutbreakConfig) (cands : List InvasiveReport) :
    ∀ (rest : List InvasiveReport) (used : List String),
      detectLoop distKm cfg cands rest used =
        (detectLoopAnchored distKm cfg cands rest used).map Prod.snd := by
  intro rest
  induction rest with
  | nil => intro used; rfl
  | cons a rest ih =>
      intro used
      by_cases h : a.id ∈ used
      · simp only [detectLoop, detectLoopAnchored, if_pos h]
        exact ih used
      · by_cases h2 : cfg.MIN_REPORTS ≤ (clusterOf distKm cfg cands a).length
        · simp only [detectLoop, detectLoopAnchored, if_neg h, if_pos h2, List.map_cons]
          rw [ih]
        · simp only [detectLoop, detectLoopAnchored, if_neg h, if_neg h2]
          exact ih used

/-- Anchors of emitted zones were not in the visited set the loop started
with. -/
theorem detectLoopAnchored_anchor_not_used (distKm : GPSCoordinates → GPSCoordinates → ℚ)
    (cfg : OutbreakConfig) (cands : List InvasiveReport) :
    ∀ (rest : List InvasiveReport) (used : List String)
      (p : InvasiveReport × OutbreakZone),
      p ∈ detectLoopAnchored distKm cfg cands rest used → p.1.id ∉ used := by
  intro rest
  induction rest with
  | nil => intro used p hp; simp [detectLoopAnchored] at hp
  | cons a rest ih =>
      intro used p hp
      by_cases h : a.id ∈ used
      · simp only [detectLoopAnchored, if_pos h] at hp
        exact ih used p hp
      · by_cases h2 : cfg.MIN_REPORTS ≤ (clusterOf distKm cfg cands a).length
        · simp only [detectLoopAnchored, if_neg h, if_pos h2] at hp
          rcases List.mem_cons.mp hp with heq | hmem
          · subst heq
            exact h
          · have hrec := ih (used ++ (clusterOf distKm cfg cands a).map (fun r => r.id)) p hmem
            intro hmem2
            exact hrec (List.mem_append.mpr (Or.inl hmem2))
        · simp only [detectLoopAnchored, if_neg h, if_neg h2] at hp
          exact ih used p hp

/-- Once a zone is emitted, every one of its member ids is visited, so the
anchor of every later zone avoids the members of every earlier zone. -/
theorem detectLoopAnchored_pairwise (distKm : GPSCoordinates → GPSCoordinates → ℚ)
    (cfg : OutbreakConfig) (cands : List InvasiveReport) :
    ∀ (rest : List InvasiveReport) (used : List String),
      (detectLoopAnchored distKm cfg cands rest used).Pairwise
        (fun p q => q.1.id ∉ p.2.reports.map (fun r => r.id)) := by
  intro rest
  induction rest with
  | nil => intro used; simp [detectLoopAnchored]
  | cons a rest ih =>
      intro used
      by_cases h : a.id ∈ used
      · simp only [detectLoopAnchored, if_pos h]
        exact ih used
      · by_cases h2 : cfg.MIN_REPORTS ≤ (clusterOf distKm cfg cands a).length
        · simp only [detectLoopAnchored, if_neg h, if_pos h2]
          refine List.Pairwise.cons ?_ (ih _)
          intro q hq
          have hrec := detectLoopAnchored_anchor_not_used distKm cfg cands rest
            (used ++ (clusterOf distKm cfg cands a).map (fun r => r.id)) q hq
          intro hmem
          apply hrec
          apply List.mem_append.mpr
          right
          simpa [mkZone] using hmem
        · simp only [detectLoopAnchored, if_neg h, if_neg h2]
          exact ih used

/-- Claim C2 (amended): every member of an emitted zone is marked visited,
so the anchor of any later-emitted zone is never a member of an earlier
zone; however, member lists of distinct zones may overlap, because the
cluster of a later anchor collects every candidate within radius regardless
of the visited set. -/
theorem detect_zone_members_visited (distKm : GPSCoordinates → GPSCoordinates → ℚ)
    (cfg : OutbreakConfig) (now : Int) (reports : List InvasiveReport) :
    detectOutbreaks distKm cfg now reports =
      (detectOutbreaksAnchored distKm cfg now reports).map Prod.snd
    ∧ (detectOutbreaksAnchored distKm cfg now reports).Pairwise
        (fun p q => q.1.id ∉ p.2.reports.map (fun r => r.id)) :=
  ⟨detectLoop_eq_anchored distKm cfg (candidatesOf cfg now reports)
      (candidatesOf cfg now reports) [],
   detectLoopAnchored_pairwise distKm cfg (candidatesOf cfg now reports)
      (candidatesOf cfg now reports) []⟩

/-- A concrete distance table standing in for the great-circle distance in
the counterexample: records sit on a line at latitudes 0, 4 and 8, two
kilometres apart per latitude step pair, realizing the absolute latitude
difference on these three positions without rational arithmetic. -/
def cexDist (p q : GPSCoordinates) : ℚ :=
  if p.latitude = q.latitude then 0
  else if (p.latitude = 0 ∧ q.latitude = 4) ∨ (p.latitude = 4 ∧ q.latitude = 0) ∨
      (p.latitude = 4 ∧ q.latitude = 8) ∨ (p.latitude = 8 ∧ q.latitude = 4) then 4
  else 8

/-- Nine candidates on a line: four at kilometre 0, one at kilometre 4 and
four at kilometre 8.  The anchor at 0 claims the record at 4, and the anchor
at 8, itself unvisited, claims it again. -/
def cexReports : List InvasiveReport :=
  [mkReport "a1" 0 0 (some highPred) SyncStatus.uploaded,
   mkReport "a2" 0 0 (some highPred) SyncStatus.uploaded,
   mkReport "a3" 0 0 (some highPred) SyncStatus.uploaded,
   mkReport "a4" 0 0 (some highPred) SyncStatus.uploaded,
   mkReport "b" 4 0 (some highPred) SyncStatus.uploaded,
   mkReport "c1" 8 0 (some highPred) SyncStatus.uploaded,
   mkReport "c2" 8 0 (some highPred) SyncStatus.uploaded,
   mkReport "c3" 8 0 (some highPred) SyncStatus.uploaded,
   mkReport "c4" 8 0 (some highPred) SyncStatus.uploaded]

/-- Claim C2 counterexample: the zones emitted for cexReports do not have
pairwise disjoint member sets; the record with id "b" is a member of both
emitted zones, because the cluster filter never consults the visited set. -/
theorem detect_zones_overlap_cex :
    ¬ (detectOutbreaks cexDist OUTBREAK_CONFIG 0 cexReports).Pairwise
        (fun z w => ∀ i ∈ z.reports.map (fun r => r.id),
          i ∉ w.reports.map (fun r => r.id)) := by
  decide

/-- Unfolding step of the detection loop: an already-visited anchor is
skipped. -/
theorem detectLoop_cons_used (distKm : GPSCoordinates → GPSCoordinates → ℚ)
    (cfg : OutbreakConfig) (cands : List InvasiveReport) (a : InvasiveReport)
    (rest : List InvasiveReport) (used : List String) (hu : a.id ∈ used) :
    detectLoop distKm cfg cands (a :: rest) used =
      detectLoop distKm cfg cands rest used := by
  simp only [detectLoop, if_pos hu]

/-- Unfolding step of the detection loop: an unvisited anchor whose cluster
is below the threshold emits nothing and marks nothing. -/
theorem detectLoop_cons_skip (distKm : GPSCoordinates → GPSCoordinates → ℚ)
    (cfg : OutbreakConfig) (cands : List InvasiveReport) (a : InvasiveReport)
    (rest : List InvasiveReport) (used : List String) (hu : a.id ∉ used)
    (hsmall : ¬ cfg.MIN_REPORTS ≤ (clusterOf distKm cfg cands a).length) :
    detectLoop distKm cfg cands (a :: rest) used =
      detectLoop distKm cfg cands rest used := by
  simp only [detectLoop, if_neg hu, if_neg hsmall]

/-- Unfolding step of the detection loop: an unvisited anchor whose cluster
reaches the threshold emits a zone and marks every member id visited. -/
theorem detectLoop_cons_emit (distKm : GPSCoordinates → GPSCoordinates → ℚ)
    (cfg : OutbreakConfig) (cands : List InvasiveReport) (a : InvasiveReport)
    (rest : List InvasiveReport) (used : List String) (hu : a.id ∉ used)
    (hbig : cfg.MIN_REPORTS ≤ (clusterOf distKm cfg cands a).length) :
    detectLoop distKm cfg cands (a :: rest) used =
      mkZone cfg (clusterOf distKm cfg cands a) ::
        detectLoop distKm cfg cands rest
          (used ++ (clusterOf distKm cfg cands a).map (fun r => r.id)) := by
  simp only [detectLoop, if_neg hu, if_pos hbig]

/-- The detection loop emits nothing once every remaining anchor is
visited. -/
theorem detectLoop_all_used (distKm : GPSCoordinates → GPSCoordinates → ℚ)
    (cfg : OutbreakConfig) (cands : List InvasiveReport) :
    ∀ (rest : List InvasiveReport) (used : List String),
      (∀ a ∈ rest, a.id ∈ used) →
      detectLoop distKm cfg cands rest used = [] := by
  intro rest
  induction rest with
  | nil => intro used _; rfl
  | cons a rest ih =>
      intro used hall
      rw [detectLoop_cons_used distKm cfg cands a rest used
        (hall a (List.mem_cons_self a rest))]
      exact ih used (fun b hb => hall b (List.mem_cons_of_mem a hb))

/-- Every zone the detection loop emits is built by mkZone from the cluster
of an anchor of the remaining list, and that cluster reached the
threshold. -/
theorem detectLoop_zone_shape (distKm : GPSCoordinates → GPSCoordinates → ℚ)
    (cfg : OutbreakConfig) (cands : List InvasiveReport) :
    ∀ (rest : List InvasiveReport) (used : List String) (z : OutbreakZone),
      z ∈ detectLoop distKm cfg cands rest used →
      ∃ a, a ∈ rest ∧ z = mkZone cfg (clusterOf distKm cfg cands a) ∧
        cfg.MIN_REPORTS ≤ (clusterOf distKm cfg cands a).length := by
  intro rest
  induction rest with
  | nil => intro used z hz; simp [detectLoop] at hz
  | cons a rest ih =>
      intro used z hz
      by_cases h : a.id ∈ used
      · rw [detectLoop_cons_used distKm cfg cands a rest used h] at hz
        rcases ih used z hz with ⟨b, hb, hzb, hlen⟩
        exact ⟨b, List.mem_cons_of_mem a hb, hzb, hlen⟩
      · by_cases h2 : cfg.MIN_REPORTS ≤ (clusterOf distKm cfg cands a).length
        · rw [detectLoop_cons_emit distKm cfg cands a rest used h h2] at hz
          rcases List.mem_cons.mp hz with heq | hmem
          · exact ⟨a, List.mem_cons_self a rest, heq, h2⟩
          · rcases ih _ z hmem with ⟨b, hb, hzb, hlen⟩
            exact ⟨b, List.mem_cons_of_mem a hb, hzb, hlen⟩
        · rw [detectLoop_cons_skip distKm cfg cands a rest used h h2] at hz
          rcases ih used z hz with ⟨b, hb, hzb, hlen⟩
          exact ⟨b, List.mem_cons_of_mem a hb, hzb, hlen⟩

/-- Claim C4: every emitted zone carries the configured radius (not the
cluster extent), a reportCount equal to its member count, and the arithmetic
mean of the member latitudes and longitudes as its center, and its member
list is the radius cluster of some candidate anchor of size at least
MIN_REPORTS; with the default configuration, five qualifying records within
two kilometres of a common point yield exactly one zone of five members,
and the same records with the fifth moved beyond the radius yield no zone.
The great-circle distance enters only through these geometric hypotheses
(symmetry, triangle inequality and the stated proximity facts), all true of
the haversine distance for the scenario positions. -/
theorem detect_zone_fields_and_threshold :
    (∀ (distKm : GPSCoordinates → GPSCoordinates → ℚ) (cfg : OutbreakConfig)
        (now : Int) (reports : List InvasiveReport),
      ∀ z ∈ detectOutbreaks distKm cfg now reports,
        z.radiusKm = cfg.RADIUS_KM ∧
        z.reportCount = z.reports.length ∧
        z.centerCoordinates.latitude =
          (z.reports.map (fun r => r.coordinates.latitude)).sum / z.reports.length ∧
        z.centerCoordinates.longitude =
          (z.reports.map (fun r => r.coordinates.longitude)).sum / z.reports.length ∧
        cfg.MIN_REPORTS ≤ z.reports.length ∧
        ∃ a ∈ candidatesOf cfg now reports,
          z.reports = clusterOf distKm cfg (candidatesOf cfg now reports) a)
    ∧ (∀ (distKm : GPSCoordinates → GPSCoordinates → ℚ) (P : GPSCoordinates)
        (r1 r2 r3 r4 r5 : InvasiveReport) (now : Int),
        (∀ p q, distKm p q = distKm q p) →
        (∀ p q c, distKm p c ≤ distKm p q + distKm q c) →
        (∀ r ∈ [r1, r2, r3, r4, r5],
          isHighRisk OUTBREAK_CONFIG r = true ∧
          isWithinDays now r.timestamp OUTBREAK_CONFIG.TIME_WINDOW_DAYS = true) →
        (∀ r ∈ [r1, r2, r3, r4, r5], distKm P r.coordinates ≤ 2) →
        (detectOutbreaks distKm OUTBREAK_CONFIG now [r1, r2, r3, r4, r5]).map
          (fun z => z.reportCount) = [5])
    ∧ (∀ (distKm : GPSCoordinates → GPSCoordinates → ℚ) (P : GPSCoordinates)
        (r1 r2 r3 r4 r5 : InvasiveReport) (now : Int),
        (∀ p q, distKm p q = distKm q p) →
        (∀ p q c, distKm p c ≤ distKm p q + distKm q c) →
        (∀ r ∈ [r1, r2, r3, r4, r5],
          isHighRisk OUTBREAK_CONFIG r = true ∧
          isWithinDays now r.timestamp OUTBREAK_CONFIG.TIME_WINDOW_DAYS = true) →
        (∀ r ∈ [r1, r2, r3, r4], distKm P r.coordinates ≤ 2) →
        (∀ r ∈ [r1, r2, r3, r4],
          OUTBREAK_CONFIG.RADIUS_KM < distKm r.coordinates r5.coordinates) →
        detectOutbreaks distKm OUTBREAK_CONFIG now [r1, r2, r3, r4, r5] = []) := by
  refine ⟨?_, ?_, ?_⟩
  · intro distKm cfg now reports z hz
    have hz2 : z ∈ detectLoop distKm cfg (candidatesOf cfg now reports)
        (candidatesOf cfg now reports) [] := hz
    rcases detectLoop_zone_shape distKm cfg (candidatesOf cfg now reports)
      (candidatesOf cfg now reports) [] z hz2 with ⟨a, ha, hzdef, hlen⟩
    subst hzdef
    refine ⟨rfl, rfl, rfl, rfl, hlen, a, ha, rfl⟩
  · intro distKm P r1 r2 r3 r4 r5 now hsym htri hcand hnear
    have hcands : candidatesOf OUTBREAK_CONFIG now [r1, r2, r3, r4, r5]
        = [r1, r2, r3, r4, r5] := by
      unfold candidatesOf
      apply List.filter_eq_self.mpr
      intro r hr
      rw [Bool.and_eq_true]
      exact ⟨(hcand r hr).1, (hcand r hr).2⟩
    have hpair : ∀ a ∈ [r1, r2, r3, r4, r5], ∀ b ∈ [r1, r2, r3, r4, r5],
        distKm a.coordinates b.coordinates ≤ OUTBREAK_CONFIG.RADIUS_KM := by
      intro a ha b hb
      have h1 := hnear a ha
      have h2 := hnear b hb
      have h3 := htri a.coordinates P b.coordinates
      have h4 := hsym a.coordinates P
      have h5 : OUTBREAK_CONFIG.RADIUS_KM = 5 := rfl
      rw [h5]
      rw [h4] at h3
      linarith
    have hclus1 : clusterOf distKm OUTBREAK_CONFIG [r1, r2, r3, r4, r5] r1
        = [r1, r2, r3, r4, r5] := by
      unfold clusterOf
      apply List.filter_eq_self.mpr
      intro r hr
      exact decide_eq_true (hpair r1 (by simp) r hr)
    have hbig : OUTBREAK_CONFIG.MIN_REPORTS ≤
        (clusterOf distKm OUTBREAK_CONFIG [r1, r2, r3, r4, r5] r1).length := by
      rw [hclus1]
      simp [OUTBREAK_CONFIG]
    have hgoal : detectOutbreaks distKm OUTBREAK_CONFIG now [r1, r2, r3, r4, r5]
        = [mkZone OUTBREAK_CONFIG [r1, r2, r3, r4, r5]] := by
      simp only [detectOutbreaks]
      rw [hcands]
      rw [detectLoop_cons_emit distKm OUTBREAK_CONFIG [r1, r2, r3, r4, r5] r1
        [r2, r3, r4, r5] [] (List.not_mem_nil r1.id) hbig]
      rw [hclus1]
      rw [detectLoop_all_used distKm OUTBREAK_CONFIG [r1, r2, r3, r4, r5]
        [r2, r3, r4, r5] _ ?_]
      intro a ha
      simp only [List.map_cons, List.map_nil, List.nil_append]
      simp only [List.mem_cons, List.not_mem_nil, or_false] at ha
      rcases ha with rfl | rfl | rfl | rfl <;> simp
    rw [hgoal]
    simp [mkZone]
  · intro distKm P r1 r2 r3 r4 r5 now hsym htri hcand hnear hfar
    have hcands : candidatesOf OUTBREAK_CONFIG now [r1, r2, r3, r4, r5]
        = [r1, r2, r3, r4, r5] := by
      unfold candidatesOf
      apply List.filter_eq_self.mpr
      intro r hr
      rw [Bool.and_eq_true]
      exact ⟨(hcand r hr).1, (hcand r hr).2⟩
    have hpair : ∀ a ∈ [r1, r2, r3, r4], ∀ b ∈ [r1, r2, r3, r4],
        distKm a.coordinates b.coordinates ≤ OUTBREAK_CONFIG.RADIUS_KM := by
      intro a ha b hb
      have h1 := hnear a ha
      have h2 := hnear b hb
      have h3 := htri a.coordinates P b.coordinates
      have h4 := hsym a.coordinates P
      have h5 : OUTBREAK_CONFIG.RADIUS_KM = 5 := rfl
      rw [h5]
      rw [h4] at h3
      linarith
    have hsmall4 : ∀ a ∈ [r1, r2, r3, r4],
        clusterOf distKm OUTBREAK_CONFIG [r1, r2, r3, r4, r5] a
          = [r1, r2, r3, r4] := by
      intro a ha
      unfold clusterOf
      have h1 := decide_eq_true (hpair a ha r1 (by simp))
      have h2 := decide_eq_true (hpair a ha r2 (by simp))
      have h3 := decide_eq_true (hpair a ha r3 (by simp))
      have h4 := decide_eq_true (hpair a ha r4 (by simp))
      have h5 : decide (distKm a.coordinates r5.coordinates ≤
          OUTBREAK_CONFIG.RADIUS_KM) = false :=
        decide_eq_false (not_le.mpr (hfar a ha))
      simp [List.filter_cons, h1, h2, h3, h4, h5]
    have hsmall5 : ¬ OUTBREAK_CONFIG.MIN_REPORTS ≤
        (clusterOf distKm OUTBREAK_CONFIG [r1, r2, r3, r4, r5] r5).length := by
      have hfar5 : ∀ a ∈ [r1, r2, r3, r4],
          decide (distKm r5.coordinates a.coordinates ≤
            OUTBREAK_CONFIG.RADIUS_KM) = false := by
        intro a ha
        apply decide_eq_false
        apply not_le.mpr
        rw [hsym r5.coordinates a.coordinates]
        exact hfar a ha
      have hres : clusterOf distKm OUTBREAK_CONFIG [r1, r2, r3, r4, r5] r5
          = List.filter (fun r => decide (distKm r5.coordinates r.coordinates ≤
              OUTBREAK_CONFIG.RADIUS_KM)) [r5] := by
        unfold clusterOf
        simp [List.filter_cons, hfar5 r1 (by simp), hfar5 r2 (by simp),
          hfar5 r3 (by simp), hfar5 r4 (by simp)]
      rw [hres]
      have hle := List.length_filter_le
        (fun r => decide (distKm r5.coordinates r.coordinates ≤
          OUTBREAK_CONFIG.RADIUS_KM)) [r5]
      intro hcontra
      have h51 : (5 : Nat) ≤ 1 := le_trans hcontra (by simpa using hle)
      omega
    have hnsmall : ∀ a ∈ [r1, r2, r3, r4],
        ¬ OUTBREAK_CONFIG.MIN_REPORTS ≤
          (clusterOf distKm OUTBREAK_CONFIG [r1, r2, r3, r4, r5] a).length := by
      intro a ha
      rw [hsmall4 a ha]
      simp [OUTBREAK_CONFIG]
    simp only [detectOutbreaks]
    rw [hcands]
    rw [detectLoop_cons_skip distKm OUTBREAK_CONFIG [r1, r2, r3, r4, r5] r1
      [r2, r3, r4, r5] [] (List.not_mem_nil r1.id) (hnsmall r1 (by simp))]
    rw [detectLoop_cons_skip distKm OUTBREAK_CONFIG [r1, r2, r3, r4, r5] r2
      [r3, r4, r5] [] (List.not_mem_nil r2.id) (hnsmall r2 (by simp))]
    rw [detectLoop_cons_skip distKm OUTBREAK_CONFIG [r1, r2, r3, r4, r5] r3
      [r4, r5] [] (List.not_mem_nil r3.id) (hnsmall r3 (by simp))]
    rw [detectLoop_cons_skip distKm OUTBREAK_CONFIG [r1, r2, r3, r4, r5] r4
      [r5] [] (List.not_mem_nil r4.id) (hnsmall r4 (by simp))]
    rw [detectLoop_cons_skip distKm OUTBREAK_CONFIG [r1, r2, r3, r4, r5] r5
      [] [] (List.not_mem_nil r5.id) hsmall5]
    rfl

/-- A distance table that keeps equal latitudes at distance zero and
distinct latitudes one hundred kilometres apart; it is symmetric and
satisfies the triangle inequality, and it avoids rational arithmetic so
concrete runs evaluate. -/
def farDist (p q : GPSCoordinates) : ℚ :=
  if p.latitude = q.latitude then 0 else 100

/-- farDist is symmetric. -/
theorem farDist_symm (p q : GPSCoordinates) : farDist p q = farDist q p := by
  unfold farDist
  by_cases h : p.latitude = q.latitude
  · rw [if_pos h, if_pos h.symm]
  · rw [if_neg h, if_neg (fun hh => h hh.symm)]

/-- farDist satisfies the triangle inequality. -/
theorem farDist_triangle (p q c : GPSCoordinates) :
    farDist p c ≤ farDist p q + farDist q c := by
  unfold farDist
  by_cases hpq : p.latitude = q.latitude
  · by_cases hqc : q.latitude = c.latitude
    · rw [if_pos hpq, if_pos hqc, if_pos (hpq.trans hqc)]
      norm_num
    · rw [if_pos hpq, if_neg hqc, if_neg (fun h => hqc (hpq.symm.trans h))]
      norm_num
  · by_cases hqc : q.latitude = c.latitude
    · rw [if_neg hpq, if_pos hqc]
      by_cases hpc : p.latitude = c.latitude
      · rw [if_pos hpc]; norm_num
      · rw [if_neg hpc]; norm_num
    · rw [if_neg hpq, if_neg hqc]
      by_cases hpc : p.latitude = c.latitude
      · rw [if_pos hpc]; norm_num
      · rw [if_neg hpc]; norm_num

/-- A qualifying witness record at the given latitude, captured at epoch
time zero. -/
def wRep (i : String) (lat : ℚ) : InvasiveReport :=
  mkReport i lat 0 (some highPred) SyncStatus.uploaded

/-- Witness for detect_zone_fields_and_threshold: with farDist, five
colocated qualifying records one day old yield one zone of five members,
and moving the fifth a hundred kilometres away yields no zone. -/
theorem detect_zone_fields_and_threshold_witness :
    (detectOutbreaks farDist OUTBREAK_CONFIG 86400000
        [wRep "w1" 0, wRep "w2" 0, wRep "w3" 0, wRep "w4" 0, wRep "w5" 0]).map
      (fun z => z.reportCount) = [5]
    ∧ detectOutbreaks farDist OUTBREAK_CONFIG 86400000
        [wRep "w1" 0, wRep "w2" 0, wRep "w3" 0, wRep "w4" 0, wRep "w5" 100] = [] :=
  ⟨detect_zone_fields_and_threshold.2.1 farDist
      { latitude := 0, longitude := 0, accuracy := none }
      (wRep "w1" 0) (wRep "w2" 0) (wRep "w3" 0) (wRep "w4" 0) (wRep "w5" 0)
      86400000 farDist_symm farDist_triangle (by decide) (by decide),
   detect_zone_fields_and_threshold.2.2 farDist
      { latitude := 0, longitude := 0, accuracy := none }
      (wRep "w1" 0) (wRep "w2" 0) (wRep "w3" 0) (wRep "w4" 0) (wRep "w5" 100)
      86400000 farDist_symm farDist_triangle (by decide) (by decide) (by decide)⟩

/-- Filling in a missing prediction never changes the record id. -/
theorem finalReportOf_id (predict : InvasiveReport → Option MLPrediction)
    (r : InvasiveReport) : (finalReportOf predict r).id = r.id := by
  unfold finalReportOf
  cases hp : r.prediction
  · cases hq : predict r
    · rfl
    · rfl
  · rfl

/-- Claim C6: in one sync pass over three pending records whose second
upload fails, the failure is isolated: the first and third records are
moved to the synced bucket with status uploaded and the second stays
pending with status failed; the loop never aborts, and totality of the
embedding models that no exception escapes runSync. -/
theorem sync_failure_isolated
    (predict : InvasiveReport → Option MLPrediction)
    (uploadOk : InvasiveReport → Bool)
    (r1 r2 r3 : InvasiveReport)
    (h1 : r1.syncStatus = SyncStatus.pending)
    (h2 : r2.syncStatus = SyncStatus.pending)
    (h3 : r3.syncStatus = SyncStatus.pending)
    (h12 : r1.id ≠ r2.id) (h13 : r1.id ≠ r3.id) (h23 : r2.id ≠ r3.id)
    (hup : ∀ x, uploadOk x = (x.id != r2.id)) :
    (runSyncPass predict uploadOk { pending := [r1, r2, r3], synced := [] }).1 =
      { pending := [{ r2 with syncStatus := SyncStatus.failed }]
        synced := [{ r1 with syncStatus := SyncStatus.uploaded },
                   { r3 with syncStatus := SyncStatus.uploaded }] } := by
  have hsel : List.filter
      (fun r => r.syncStatus == SyncStatus.pending || r.syncStatus == SyncStatus.failed)
      [r1, r2, r3] = [r1, r2, r3] := by
    apply List.filter_eq_self.mpr
    intro r hr
    simp only [List.mem_cons, List.not_mem_nil, or_false] at hr
    rcases hr with rfl | rfl | rfl <;> simp [h1, h2, h3]
  have hu1 : uploadOk (finalReportOf predict r1) = true := by
    rw [hup, finalReportOf_id]
    exact bne_iff_ne.mpr h12
  have hu2 : uploadOk (finalReportOf predict r2) = false := by
    rw [hup, finalReportOf_id]
    simp
  have hu3 : uploadOk (finalReportOf predict r3) = true := by
    rw [hup, finalReportOf_id]
    exact bne_iff_ne.mpr (Ne.symm h23)
  have e1 : updateReportStatus r1.id SyncStatus.syncing
      { pending := [r1, r2, r3], synced := [] } =
      { pending := [{ r1 with syncStatus := SyncStatus.syncing }, r2, r3]
        synced := [] } := by
    simp [updateReportStatus, Ne.symm h12, Ne.symm h13]
  have e2 : markReportSynced r1.id
      { pending := [{ r1 with syncStatus := SyncStatus.syncing }, r2, r3]
        synced := [] } =
      { pending := [r2, r3]
        synced := [{ r1 with syncStatus := SyncStatus.uploaded }] } := by
    simp [markReportSynced, Ne.symm h12, Ne.symm h13]
  have e3 : updateReportStatus r2.id SyncStatus.syncing
      { pending := [r2, r3]
        synced := [{ r1 with syncStatus := SyncStatus.uploaded }] } =
      { pending := [{ r2 with syncStatus := SyncStatus.syncing }, r3]
        synced := [{ r1 with syncStatus := SyncStatus.uploaded }] } := by
    simp [updateReportStatus, Ne.symm h23]
  have e4 : updateReportStatus r2.id SyncStatus.failed
      { pending := [{ r2 with syncStatus := SyncStatus.syncing }, r3]
        synced := [{ r1 with syncStatus := SyncStatus.uploaded }] } =
      { pending := [{ r2 with syncStatus := SyncStatus.failed }, r3]
        synced := [{ r1 with syncStatus := SyncStatus.uploaded }] } := by
    simp [updateReportStatus, Ne.symm h23]
  have e5 : updateReportStatus r3.id SyncStatus.syncing
      { pending := [{ r2 with syncStatus := SyncStatus.failed }, r3]
        synced := [{ r1 with syncStatus := SyncStatus.uploaded }] } =
      { pending := [{ r2 with syncStatus := SyncStatus.failed },
          { r3 with syncStatus := SyncStatus.syncing }]
        synced := [{ r1 with syncStatus := SyncStatus.uploaded }] } := by
    simp [updateReportStatus, h23]
  have e6 : markReportSynced r3.id
      { pending := [{ r2 with syncStatus := SyncStatus.failed },
          { r3 with syncStatus := SyncStatus.syncing }]
        synced := [{ r1 with syncStatus := SyncStatus.uploaded }] } =
      { pending := [{ r2 with syncStatus := SyncStatus.failed }]
        synced := [{ r1 with syncStatus := SyncStatus.uploaded },
                   { r3 with syncStatus := SyncStatus.uploaded }] } := by
    simp [markReportSynced, h23]
  simp only [runSyncPass, hsel, syncLoop, finalReportOf_id,
    e1, e2, e3, e4, e5, e6, hu1, hu2, hu3, if_true, if_false]
  simp

/-- Witness for sync_failure_isolated: three concrete pending records where
the upload oracle rejects exactly id "b". -/
theorem sync_failure_isolated_witness :
    (runSyncPass (fun _ => none) (fun x => x.id != "b")
        { pending := [mkReport "a" 0 0 none SyncStatus.pending,
                      mkReport "b" 0 0 none SyncStatus.pending,
                      mkReport "c" 0 0 none SyncStatus.pending]
          synced := [] }).1 =
      { pending := [mkReport "b" 0 0 none SyncStatus.failed]
        synced := [mkReport "a" 0 0 none SyncStatus.uploaded,
                   mkReport "c" 0 0 none SyncStatus.uploaded] } :=
  sync_failure_isolated (fun _ => none) (fun x => x.id != "b")
    (mkReport "a" 0 0 none SyncStatus.pending)
    (mkReport "b" 0 0 none SyncStatus.pending)
    (mkReport "c" 0 0 none SyncStatus.pending)
    rfl rfl rfl (by decide) (by decide) (by decide) (fun _ => rfl)

/-- Claim C9: when a record without a prediction is classified during the
pass and its upload succeeds, the upload payload carries the new prediction,
but the record appended to the synced bucket is copied from the stored
pending record, so its persisted prediction is still none. -/
theorem sync_prediction_not_persisted
    (predict : InvasiveReport → Option MLPrediction)
    (uploadOk : InvasiveReport → Bool)
    (r : InvasiveReport) (p : MLPrediction)
    (hst : r.syncStatus = SyncStatus.pending)
    (hpred : r.prediction = none)
    (hclass : predict r = some p)
    (hup : ∀ x, uploadOk x = true) :
    ((runSyncPass predict uploadOk { pending := [r], synced := [] }).2.map
        (fun a => a.1.prediction)) = [some p]
    ∧ (runSyncPass predict uploadOk { pending := [r], synced := [] }).1.pending = []
    ∧ ((runSyncPass predict uploadOk { pending := [r], synced := [] }).1.synced.map
        (fun x => x.prediction)) = [r.prediction] := by
  have hsel : List.filter
      (fun x => x.syncStatus == SyncStatus.pending || x.syncStatus == SyncStatus.failed)
      [r] = [r] := by
    simp [hst]
  have hfinal : finalReportOf predict r = { r with prediction := some p } := by
    simp [finalReportOf, hpred, hclass]
  have hu : uploadOk { r with prediction := some p } = true := hup _
  have e1 : updateReportStatus r.id SyncStatus.syncing
      { pending := [r], synced := [] } =
      { pending := [{ r with syncStatus := SyncStatus.syncing }], synced := [] } := by
    simp [updateReportStatus]
  have e2 : markReportSynced r.id
      { pending := [{ r with syncStatus := SyncStatus.syncing }], synced := [] } =
      { pending := [], synced := [{ r with syncStatus := SyncStatus.uploaded }] } := by
    simp [markReportSynced]
  refine ⟨?_, ?_, ?_⟩ <;>
    simp only [runSyncPass, hsel, syncLoop, hfinal, finalReportOf_id, hu,
      e1, e2, if_true, List.map_cons, List.map_nil, payloadOf]

/-- Witness for sync_prediction_not_persisted: a concrete record whose
classification succeeds during the pass; the uploaded payload carries the
prediction while the synced copy keeps none. -/
theorem sync_prediction_not_persisted_witness :
    ((runSyncPass (fun _ => some highPred) (fun _ => true)
        { pending := [mkReport "a" 0 0 none SyncStatus.pending], synced := [] }).2.map
      (fun a => a.1.prediction)) = [some highPred]
    ∧ (runSyncPass (fun _ => some highPred) (fun _ => true)
        { pending := [mkReport "a" 0 0 none SyncStatus.pending], synced := [] }).1.pending = []
    ∧ ((runSyncPass (fun _ => some highPred) (fun _ => true)
        { pending := [mkReport "a" 0 0 none SyncStatus.pending], synced := [] }).1.synced.map
      (fun x => x.prediction)) = [(mkReport "a" 0 0 none SyncStatus.pending).prediction] :=
  sync_prediction_not_persisted (fun _ => some highPred) (fun _ => true)
    (mkReport "a" 0 0 none SyncStatus.pending) highPred
    rfl rfl rfl (fun _ => rfl)

end Invadr
